import Mathlib

/-!
Shallow embedding of `contracts/chainlink_permit2.sol` (`Permit2TransferValidator`).

Addresses are modelled as natural numbers (the zero address is `0`); byte
strings as lists of naturals.  The two external collaborators — the Permit2
allowance registry and the LayerZero OFT bridge/token — are modelled by an
abstract environment `Env` that decides, for each external call, whether it
succeeds, what it returns, and how it transforms the external world state
(token balances, registry allowance and nonce state).  Each contract entry
point is a Lean function threading a `CallState` (world, list of external
calls performed, list of events emitted) and returning `Except`: an EVM
revert is `Except.error` carrying the revert reason together with the state
at the moment of failure; the platform then discards that state, which is
what `finalWorld` encodes.
-/

abbrev Addr := Nat

abbrev Bytes := List Nat

/-- Cast to `uint160`, as in Solidity: reduction modulo `2 ^ 160`. -/
def toUint160 (n : Nat) : Nat := n % 2 ^ 160

/-- The widening cast `bytes32(uint256(uint160(a)))` applied to a 160-bit
address value: it preserves the value. -/
def addrToBytes32 (a : Addr) : Nat := a

/-- Mirror of `IAllowanceTransfer.PermitDetails`. -/
structure PermitDetails where
  token : Addr
  amount : Nat
  expiration : Nat
  nonce : Nat
deriving DecidableEq, Repr

/-- Mirror of `IAllowanceTransfer.PermitSingle`. -/
structure PermitSingle where
  details : PermitDetails
  spender : Addr
  sigDeadline : Nat
deriving DecidableEq, Repr

/-- Mirror of `ISignatureTransfer.TokenPermissions`. -/
structure TokenPermissions where
  token : Addr
  amount : Nat
deriving DecidableEq, Repr

/-- Mirror of `ISignatureTransfer.PermitTransferFrom`. -/
structure PermitTransferFrom where
  permitted : TokenPermissions
  nonce : Nat
  deadline : Nat
deriving DecidableEq, Repr

/-- Mirror of `ISignatureTransfer.SignatureTransferDetails`; the source field
`to` is called `toAddr` here because `to` is reserved in Lean. -/
structure SignatureTransferDetails where
  toAddr : Addr
  requestedAmount : Nat
deriving DecidableEq, Repr

/-- Mirror of `IOFT.SendParam`; the source field `to` (a `bytes32`) is called
`toAddr` here because `to` is reserved in Lean. -/
structure SendParam where
  dstEid : Nat
  toAddr : Nat
  amountLD : Nat
  minAmountLD : Nat
  extraOptions : Bytes
  composeMsg : Bytes
  oftCmd : Bytes
deriving DecidableEq, Repr

/-- Mirror of `IOFT.MessagingFee`. -/
structure MessagingFee where
  nativeFee : Nat
  lzTokenFee : Nat
deriving DecidableEq, Repr

/-- Mirror of `IOFT.MessagingReceipt`. -/
structure MessagingReceipt where
  guid : Nat
  nonce : Nat
  fee : MessagingFee
deriving DecidableEq, Repr

/-- Mirror of `IOFT.OFTReceipt`. -/
structure OFTReceipt where
  amountSentLD : Nat
  amountReceivedLD : Nat
deriving DecidableEq, Repr

/-- External world state visible across the trust boundary: token balances
(token ↦ account ↦ balance) and the registry's allowance and nonce records. -/
structure World where
  balances : Addr → Addr → Nat
  regAllowance : Addr → Addr → Addr → Nat
  regNonceUsed : Addr → Nat → Bool

/-- Description of one external call the contract can make. -/
inductive ExtCall where
  | permit2Permit (owner : Addr) (permitSingle : PermitSingle) (signature : Bytes)
  | permit2TransferFrom (sender recipient : Addr) (amount : Nat) (token : Addr)
  | permit2SigTransferFrom (permit : PermitTransferFrom)
      (transferDetails : SignatureTransferDetails) (owner : Addr) (signature : Bytes)
  | tokenApprove (token spender : Addr) (amount : Nat)
  | tokenBalanceOf (token account : Addr)
  | oftSend (token : Addr) (sendParam : SendParam) (fee : MessagingFee)
      (refundAddress : Addr) (callValue : Nat)
  | oftQuoteSend (token : Addr) (sendParam : SendParam) (payInLzToken : Bool)
deriving DecidableEq, Repr

/-- Events emitted by the contract. -/
inductive Event where
  | PermitValidated (owner token spender : Addr) (amount : Nat)
  | TokensTransferred (sender recipient token : Addr) (amount : Nat)
  | TokensBridged (sender token : Addr) (dstEid : Nat) (dstAddress : Addr)
      (amount : Nat) (messageId : Nat)
deriving DecidableEq, Repr

/-- Value returned by an external call, as decoded at the call site. -/
inductive CallRet where
  | unitRet
  | boolRet (b : Bool)
  | natRet (n : Nat)
  | sendRet (msgReceipt : MessagingReceipt) (oftReceipt : OFTReceipt)
  | feeRet (fee : MessagingFee)
deriving DecidableEq, Repr

/-- Behaviour of the external collaborators: `exec` runs a state-changing
external call (`none` means the callee reverts), `execView` runs a
`view`/staticcall, which cannot change the world. -/
structure Env where
  exec : World → ExtCall → Option (World × CallRet)
  execView : World → ExtCall → Option CallRet

/-- Per-call execution state of the contract: current world, external calls
performed so far, events emitted so far. -/
structure CallState where
  world : World
  trace : List ExtCall
  events : List Event

/-- Initial state of a top-level call. -/
def CallState.init (w : World) : CallState := { world := w, trace := [], events := [] }

/-- Why an execution aborted. -/
inductive Err where
  | revert (msg : String)
  | extRevert
  | badReturn
deriving DecidableEq, Repr

/-- An abort carries the state at the moment of failure (to be discarded by
the platform's rollback). -/
abbrev Fail := Err × CallState

abbrev ExecResult (α : Type) := Except Fail (CallState × α)

/-- Perform a state-changing external call. -/
def extCall (env : Env) (s : CallState) (c : ExtCall) : Except Fail (CallState × CallRet) :=
  match env.exec s.world c with
  | none => Except.error (Err.extRevert, s)
  | some (w1, r) =>
      Except.ok ({ world := w1, trace := s.trace ++ [c], events := s.events }, r)

/-- Perform a `view` external call: the world cannot change. -/
def viewCall (env : Env) (s : CallState) (c : ExtCall) : Except Fail (CallState × CallRet) :=
  match env.execView s.world c with
  | none => Except.error (Err.extRevert, s)
  | some r => Except.ok ({ s with trace := s.trace ++ [c] }, r)

/-- Emit an event. -/
def emit (s : CallState) (e : Event) : CallState := { s with events := s.events ++ [e] }

/-- EVM semantics of a top-level call: a revert rolls the world back to the
pre-call state; a successful call commits the final world. -/
def finalWorld {α : Type} (w : World) (r : ExecResult α) : World :=
  match r with
  | Except.ok (s, _) => s.world
  | Except.error _ => w

/-- Embedding of `validatePermit` (chainlink_permit2.sol, lines 151-167):
forwards the permit to the registry, then emits `PermitValidated`.  There is
no local check on `permitSingle.spender`. -/
def validatePermit (env : Env) (self : Addr) (permitSingle : PermitSingle)
    (signature : Bytes) (owner : Addr) (s : CallState) : ExecResult Unit :=
  match extCall env s (ExtCall.permit2Permit owner permitSingle signature) with
  | Except.error e => Except.error e
  | Except.ok (s1, _) =>
      Except.ok (emit s1 (Event.PermitValidated owner permitSingle.details.token
        permitSingle.spender permitSingle.details.amount), ())

/-- Embedding of `validatePermitAndTransfer` (lines 177-220): six local
`require` checks in source order, then `PERMIT2.permit`, then
`PERMIT2.transferFrom`, then the `TokensTransferred` event. -/
def validatePermitAndTransfer (env : Env) (self : Addr) (permitSingle : PermitSingle)
    (signature : Bytes) (owner recipient : Addr) (amount : Nat)
    (s : CallState) : ExecResult Unit :=
  if recipient = 0 then Except.error (Err.revert "Invalid recipient", s)
  else if recipient = self then Except.error (Err.revert "Cannot transfer to self", s)
  else if amount = 0 then Except.error (Err.revert "Zero amount", s)
  else if permitSingle.details.amount < amount then
    Except.error (Err.revert "Amount exceeds permitted", s)
  else if permitSingle.details.token = 0 then Except.error (Err.revert "Invalid token", s)
  else if permitSingle.spender ≠ self then Except.error (Err.revert "Invalid spender", s)
  else
    match extCall env s (ExtCall.permit2Permit owner permitSingle signature) with
    | Except.error e => Except.error e
    | Except.ok (s1, _) =>
        match extCall env s1 (ExtCall.permit2TransferFrom owner recipient amount
          permitSingle.details.token) with
        | Except.error e => Except.error e
        | Except.ok (s2, _) =>
            Except.ok (emit s2 (Event.TokensTransferred owner recipient
              permitSingle.details.token amount), ())

/-- Embedding of `receiveTokensWithPermit` (lines 230-267): like
`validatePermitAndTransfer` but with the recipient hard-set to the contract
itself (and hence without the two recipient checks). -/
def receiveTokensWithPermit (env : Env) (self : Addr) (permitSingle : PermitSingle)
    (signature : Bytes) (owner : Addr) (amount : Nat)
    (s : CallState) : ExecResult Unit :=
  if amount = 0 then Except.error (Err.revert "Zero amount", s)
  else if permitSingle.details.amount < amount then
    Except.error (Err.revert "Amount exceeds permitted", s)
  else if permitSingle.details.token = 0 then Except.error (Err.revert "Invalid token", s)
  else if permitSingle.spender ≠ self then Except.error (Err.revert "Invalid spender", s)
  else
    match extCall env s (ExtCall.permit2Permit owner permitSingle signature) with
    | Except.error e => Except.error e
    | Except.ok (s1, _) =>
        match extCall env s1 (ExtCall.permit2TransferFrom owner self amount
          permitSingle.details.token) with
        | Except.error e => Except.error e
        | Except.ok (s2, _) =>
            Except.ok (emit s2 (Event.TokensTransferred owner self
              permitSingle.details.token amount), ())

/-- Embedding of `_sendViaLayerZero` (lines 417-452): builds the
`SendParam` with widened destination and empty `composeMsg`/`oftCmd`, the
`MessagingFee` with `lzTokenFee = 0`, calls `oft.send` with `nativeFee` as
call value, and returns the receipt's guid.  A return value that is not a
send receipt fails ABI decoding at the call site, which reverts. -/
def sendViaLayerZero (env : Env) (oft : Addr) (dstEid : Nat) (dstAddress : Addr)
    (amount minAmountLD : Nat) (extraOptions : Bytes) (refundAddress : Addr)
    (nativeFee : Nat) (s : CallState) : Except Fail (CallState × Nat) :=
  match extCall env s (ExtCall.oftSend oft
      { dstEid := dstEid, toAddr := addrToBytes32 dstAddress, amountLD := amount,
        minAmountLD := minAmountLD, extraOptions := extraOptions,
        composeMsg := [], oftCmd := [] }
      { nativeFee := nativeFee, lzTokenFee := 0 } refundAddress nativeFee) with
  | Except.error e => Except.error e
  | Except.ok (s1, CallRet.sendRet msgReceipt _) => Except.ok (s1, msgReceipt.guid)
  | Except.ok (s1, _) => Except.error (Err.badReturn, s1)

/-- Embedding of `receiveAndBridge` (lines 281-350): five local `require`
checks in source order, then `PERMIT2.permit`, `PERMIT2.transferFrom` into
the contract, the `TokensTransferred` event, `oft.approve` (spender is the
token address itself, as in line 327), `_sendViaLayerZero`, and the
`TokensBridged` event carrying the returned guid. -/
def receiveAndBridge (env : Env) (self : Addr) (permitSingle : PermitSingle)
    (signature : Bytes) (owner : Addr) (amount : Nat) (dstEid : Nat)
    (dstAddress : Addr) (minAmountLD : Nat) (extraOptions : Bytes)
    (msgValue : Nat) (s : CallState) : ExecResult Unit :=
  if amount = 0 then Except.error (Err.revert "Zero amount", s)
  else if dstAddress = 0 then Except.error (Err.revert "Invalid destination address", s)
  else if permitSingle.details.amount < amount then
    Except.error (Err.revert "Amount exceeds permitted", s)
  else if permitSingle.details.token = 0 then Except.error (Err.revert "Invalid token", s)
  else if permitSingle.spender ≠ self then Except.error (Err.revert "Invalid spender", s)
  else
    match extCall env s (ExtCall.permit2Permit owner permitSingle signature) with
    | Except.error e => Except.error e
    | Except.ok (s1, _) =>
        match extCall env s1 (ExtCall.permit2TransferFrom owner self amount
          permitSingle.details.token) with
        | Except.error e => Except.error e
        | Except.ok (s2, _) =>
            match extCall env
              (emit s2 (Event.TokensTransferred owner self permitSingle.details.token amount))
              (ExtCall.tokenApprove permitSingle.details.token
                permitSingle.details.token amount) with
            | Except.error e => Except.error e
            | Except.ok (s3, _) =>
                match sendViaLayerZero env permitSingle.details.token dstEid dstAddress
                  amount minAmountLD extraOptions owner msgValue s3 with
                | Except.error e => Except.error e
                | Except.ok (s4, guid) =>
                    Except.ok (emit s4 (Event.TokensBridged owner
                      permitSingle.details.token dstEid dstAddress amount guid), ())

/-- Embedding of `receiveAndBridgeGasless` (lines 363-412): three local
`require` checks in source order, then the one-shot
`PERMIT2_SIGNATURE.permitTransferFrom` with the contract as destination and
the permit's amount, the `TokensTransferred` event (whose amount is cast to
`uint160`, line 390), `oft.approve`, `_sendViaLayerZero`, and the
`TokensBridged` event. -/
def receiveAndBridgeGasless (env : Env) (self : Addr) (permit : PermitTransferFrom)
    (owner : Addr) (signature : Bytes) (dstEid : Nat) (dstAddress : Addr)
    (minAmountLD : Nat) (extraOptions : Bytes) (msgValue : Nat)
    (s : CallState) : ExecResult Unit :=
  if permit.permitted.amount = 0 then Except.error (Err.revert "Zero amount", s)
  else if dstAddress = 0 then Except.error (Err.revert "Invalid destination address", s)
  else if permit.permitted.token = 0 then Except.error (Err.revert "Invalid token", s)
  else
    match extCall env s (ExtCall.permit2SigTransferFrom permit
      { toAddr := self, requestedAmount := permit.permitted.amount } owner signature) with
    | Except.error e => Except.error e
    | Except.ok (s1, _) =>
        match extCall env
          (emit s1 (Event.TokensTransferred owner self permit.permitted.token
            (toUint160 permit.permitted.amount)))
          (ExtCall.tokenApprove permit.permitted.token permit.permitted.token
            permit.permitted.amount) with
        | Except.error e => Except.error e
        | Except.ok (s2, _) =>
            match sendViaLayerZero env permit.permitted.token dstEid dstAddress
              permit.permitted.amount minAmountLD extraOptions owner msgValue s2 with
            | Except.error e => Except.error e
            | Except.ok (s3, guid) =>
                Except.ok (emit s3 (Event.TokensBridged owner permit.permitted.token
                  dstEid dstAddress permit.permitted.amount guid), ())

/-- Embedding of `quoteBridge` (lines 464-487): builds the same `SendParam`
shape as the send path, queries `oft.quoteSend` (a `view` call), and returns
only the `nativeFee` component. -/
def quoteBridge (env : Env) (token : Addr) (dstEid : Nat) (dstAddress : Addr)
    (amount minAmountLD : Nat) (extraOptions : Bytes)
    (s : CallState) : Except Fail (CallState × Nat) :=
  match viewCall env s (ExtCall.oftQuoteSend token
      { dstEid := dstEid, toAddr := addrToBytes32 dstAddress, amountLD := amount,
        minAmountLD := minAmountLD, extraOptions := extraOptions,
        composeMsg := [], oftCmd := [] } false) with
  | Except.error e => Except.error e
  | Except.ok (s1, CallRet.feeRet fee) => Except.ok (s1, fee.nativeFee)
  | Except.ok (s1, _) => Except.error (Err.badReturn, s1)

/-- Embedding of `withdrawTokens` (lines 495-505): access check
`msg.sender == address(this) || to == msg.sender`, then a balance check via
the `view` call `balanceOf`, then only an `approve` — no transfer call. -/
def withdrawTokens (env : Env) (self sender token recipient : Addr) (amount : Nat)
    (s : CallState) : ExecResult Unit :=
  if sender = self ∨ recipient = sender then
    match viewCall env s (ExtCall.tokenBalanceOf token self) with
    | Except.error e => Except.error e
    | Except.ok (s1, CallRet.natRet bal) =>
        if bal < amount then Except.error (Err.revert "Insufficient balance", s1)
        else
          match extCall env s1 (ExtCall.tokenApprove token recipient amount) with
          | Except.error e => Except.error e
          | Except.ok (s2, _) => Except.ok (s2, ())
    | Except.ok (s1, _) => Except.error (Err.badReturn, s1)
  else Except.error (Err.revert "Not authorized", s)

/-- External calls that pull funds from an owner via the registry. -/
def pullsFunds : ExtCall → Bool
  | ExtCall.permit2TransferFrom _ _ _ _ => true
  | ExtCall.permit2SigTransferFrom _ _ _ _ => true
  | _ => false

/-- External calls that register an allowance with the registry. -/
def registersAllowance : ExtCall → Bool
  | ExtCall.permit2Permit _ _ _ => true
  | _ => false

/-- External calls that move (or can move) token funds: registry pulls and
the bridge send, which spends from the contract's balance. -/
def movesFunds : ExtCall → Bool
  | ExtCall.permit2TransferFrom _ _ _ _ => true
  | ExtCall.permit2SigTransferFrom _ _ _ _ => true
  | ExtCall.oftSend _ _ _ _ _ => true
  | _ => false

/-- A concrete empty world, used by witnesses and counterexamples. -/
def w0 : World :=
  { balances := fun _ _ => 0, regAllowance := fun _ _ _ => 0,
    regNonceUsed := fun _ _ => false }

/-- A concrete environment in which every external call succeeds, leaves the
world unchanged, and returns fixed values (the bridge send returns a receipt
with guid 7). -/
def okEnv : Env where
  exec := fun w c =>
    some (w, match c with
      | ExtCall.oftSend _ _ _ _ _ =>
          CallRet.sendRet { guid := 7, nonce := 1, fee := { nativeFee := 0, lzTokenFee := 0 } }
            { amountSentLD := 0, amountReceivedLD := 0 }
      | _ => CallRet.unitRet)
  execView := fun _ c =>
    some (match c with
      | ExtCall.oftQuoteSend _ _ _ => CallRet.feeRet { nativeFee := 5, lzTokenFee := 0 }
      | ExtCall.tokenBalanceOf _ _ => CallRet.natRet 1000
      | _ => CallRet.unitRet)

/-- A concrete permit whose spender (7) differs from the contract identity
used in the tests below (5). -/
def cexPermit : PermitSingle :=
  { details := { token := 3, amount := 10, expiration := 0, nonce := 0 },
    spender := 7, sigDeadline := 0 }

/-- A concrete permit whose spender is the contract identity 5. -/
def goodPermit : PermitSingle :=
  { details := { token := 3, amount := 10, expiration := 0, nonce := 0 },
    spender := 5, sigDeadline := 0 }

/-- Shorthand for the `SendParam` struct literal built by both the send path
(`_sendViaLayerZero`, lines 428-436) and the quote path (`quoteBridge`,
lines 474-483). -/
def mkSendParam (dstEid : Nat) (dstAddress : Addr) (amount minAmountLD : Nat)
    (extraOptions : Bytes) : SendParam :=
  { dstEid := dstEid, toAddr := addrToBytes32 dstAddress, amountLD := amount,
    minAmountLD := minAmountLD, extraOptions := extraOptions,
    composeMsg := [], oftCmd := [] }

theorem extCall_ok {env : Env} {s s1 : CallState} {c : ExtCall} {r : CallRet}
    (h : extCall env s c = Except.ok (s1, r)) :
    env.exec s.world c = some (s1.world, r) ∧
    s1.trace = s.trace ++ [c] ∧ s1.events = s.events := by
  unfold extCall at h
  cases hx : env.exec s.world c with
  | none => rw [hx] at h; simp at h
  | some p =>
      rw [hx] at h
      obtain ⟨w1, r0⟩ := p
      simp only [Except.ok.injEq, Prod.mk.injEq] at h
      obtain ⟨h1, h2⟩ := h
      subst h2
      subst h1
      exact ⟨rfl, rfl, rfl⟩

theorem viewCall_ok {env : Env} {s s1 : CallState} {c : ExtCall} {r : CallRet}
    (h : viewCall env s c = Except.ok (s1, r)) :
    env.execView s.world c = some r ∧
    s1.world = s.world ∧ s1.trace = s.trace ++ [c] ∧ s1.events = s.events := by
  unfold viewCall at h
  cases hx : env.execView s.world c with
  | none => rw [hx] at h; simp at h
  | some r0 =>
      rw [hx] at h
      simp only [Except.ok.injEq, Prod.mk.injEq] at h
      obtain ⟨h1, h2⟩ := h
      subst h2
      subst h1
      exact ⟨rfl, rfl, rfl, rfl⟩

theorem validatePermit_ok {env : Env} {self : Addr} {p : PermitSingle} {sig : Bytes}
    {owner : Addr} {s sf : CallState}
    (h : validatePermit env self p sig owner s = Except.ok (sf, ())) :
    ∃ w1 r1,
      env.exec s.world (ExtCall.permit2Permit owner p sig) = some (w1, r1) ∧
      sf.world = w1 ∧
      sf.trace = s.trace ++ [ExtCall.permit2Permit owner p sig] ∧
      sf.events = s.events ++
        [Event.PermitValidated owner p.details.token p.spender p.details.amount] := by
  unfold validatePermit at h
  cases hx : extCall env s (ExtCall.permit2Permit owner p sig) with
  | error e => rw [hx] at h; simp at h
  | ok p1 =>
      rw [hx] at h
      obtain ⟨s1, r1⟩ := p1
      simp only [Except.ok.injEq, Prod.mk.injEq] at h
      obtain ⟨h1, -⟩ := h
      subst h1
      obtain ⟨he, ht, hev⟩ := extCall_ok hx
      exact ⟨s1.world, r1, he, rfl, ht, by simp [emit, hev]⟩

theorem sendViaLayerZero_ok {env : Env} {oft : Addr} {dstEid : Nat} {dstAddress : Addr}
    {amount minAmountLD : Nat} {extraOptions : Bytes} {refundAddress : Addr}
    {nativeFee : Nat} {s s1 : CallState} {g : Nat}
    (h : sendViaLayerZero env oft dstEid dstAddress amount minAmountLD extraOptions
      refundAddress nativeFee s = Except.ok (s1, g)) :
    ∃ receipt oftR,
      env.exec s.world (ExtCall.oftSend oft
        (mkSendParam dstEid dstAddress amount minAmountLD extraOptions)
        { nativeFee := nativeFee, lzTokenFee := 0 } refundAddress nativeFee) =
        some (s1.world, CallRet.sendRet receipt oftR) ∧
      g = receipt.guid ∧
      s1.trace = s.trace ++ [ExtCall.oftSend oft
        (mkSendParam dstEid dstAddress amount minAmountLD extraOptions)
        { nativeFee := nativeFee, lzTokenFee := 0 } refundAddress nativeFee] ∧
      s1.events = s.events := by
  simp only [mkSendParam]
  unfold sendViaLayerZero at h
  cases hx : extCall env s (ExtCall.oftSend oft
      { dstEid := dstEid, toAddr := addrToBytes32 dstAddress, amountLD := amount,
        minAmountLD := minAmountLD, extraOptions := extraOptions,
        composeMsg := [], oftCmd := [] }
      { nativeFee := nativeFee, lzTokenFee := 0 } refundAddress nativeFee) with
  | error e => rw [hx] at h; simp at h
  | ok p1 =>
      rw [hx] at h
      obtain ⟨sa, r0⟩ := p1
      obtain ⟨he, ht, hev⟩ := extCall_ok hx
      cases r0 with
      | sendRet m o =>
          simp only [Except.ok.injEq, Prod.mk.injEq] at h
          obtain ⟨h1, h2⟩ := h
          subst h1
          exact ⟨m, o, he, h2.symm, ht, hev⟩
      | unitRet => simp at h
      | boolRet b => simp at h
      | natRet n => simp at h
      | feeRet f => simp at h

theorem quoteBridge_ok {env : Env} {token : Addr} {dstEid : Nat} {dstAddress : Addr}
    {amount minAmountLD : Nat} {extraOptions : Bytes} {s sf : CallState} {nf : Nat}
    (h : quoteBridge env token dstEid dstAddress amount minAmountLD extraOptions s =
      Except.ok (sf, nf)) :
    ∃ mfee,
      env.execView s.world (ExtCall.oftQuoteSend token
        (mkSendParam dstEid dstAddress amount minAmountLD extraOptions) false) =
        some (CallRet.feeRet mfee) ∧
      nf = mfee.nativeFee ∧
      sf.world = s.world ∧
      sf.trace = s.trace ++ [ExtCall.oftQuoteSend token
        (mkSendParam dstEid dstAddress amount minAmountLD extraOptions) false] ∧
      sf.events = s.events := by
  simp only [mkSendParam]
  unfold quoteBridge at h
  cases hx : viewCall env s (ExtCall.oftQuoteSend token
      { dstEid := dstEid, toAddr := addrToBytes32 dstAddress, amountLD := amount,
        minAmountLD := minAmountLD, extraOptions := extraOptions,
        composeMsg := [], oftCmd := [] } false) with
  | error e => rw [hx] at h; simp at h
  | ok p1 =>
      rw [hx] at h
      obtain ⟨sa, r0⟩ := p1
      obtain ⟨he, hw, ht, hev⟩ := viewCall_ok hx
      cases r0 with
      | feeRet f =>
          simp only [Except.ok.injEq, Prod.mk.injEq] at h
          obtain ⟨h1, h2⟩ := h
          subst h1
          exact ⟨f, he, h2.symm, hw, ht, hev⟩
      | unitRet => simp at h
      | boolRet b => simp at h
      | natRet n => simp at h
      | sendRet m o => simp at h

theorem withdrawTokens_ok {env : Env} {self sender token recipient : Addr}
    {amount : Nat} {s sf : CallState}
    (h : withdrawTokens env self sender token recipient amount s = Except.ok (sf, ())) :
    (sender = self ∨ recipient = sender) ∧
    ∃ bal w1 r1,
      env.execView s.world (ExtCall.tokenBalanceOf token self) =
        some (CallRet.natRet bal) ∧
      amount ≤ bal ∧
      env.exec s.world (ExtCall.tokenApprove token recipient amount) = some (w1, r1) ∧
      sf.world = w1 ∧
      sf.trace = s.trace ++ [ExtCall.tokenBalanceOf token self,
        ExtCall.tokenApprove token recipient amount] ∧
      sf.events = s.events := by
  unfold withdrawTokens at h
  split at h
  case isFalse => simp at h
  case isTrue hacc =>
      refine ⟨hacc, ?_⟩
      cases hx : viewCall env s (ExtCall.tokenBalanceOf token self) with
      | error e => rw [hx] at h; simp at h
      | ok p1 =>
          rw [hx] at h
          obtain ⟨s1, r0⟩ := p1
          obtain ⟨he, hw, ht, hev⟩ := viewCall_ok hx
          split at h
          · simp at h
          · rename_i s1b balb heq
            simp only [Except.ok.injEq, Prod.mk.injEq] at heq
            obtain ⟨hs1, hr0⟩ := heq
            subst hs1
            subst hr0
            split at h
            · simp at h
            · rename_i hbal
              cases hy : extCall env s1 (ExtCall.tokenApprove token recipient amount) with
              | error e => rw [hy] at h; simp at h
              | ok p2 =>
                  rw [hy] at h
                  obtain ⟨s2, r2⟩ := p2
                  simp only [Except.ok.injEq, Prod.mk.injEq] at h
                  obtain ⟨h1, -⟩ := h
                  subst h1
                  obtain ⟨he2, ht2, hev2⟩ := extCall_ok hy
                  rw [hw] at he2
                  exact ⟨balb, s2.world, r2, he, Nat.le_of_not_lt hbal, he2, rfl,
                    by rw [ht2, ht]; simp, by rw [hev2, hev]⟩
          · simp at h

theorem validatePermitAndTransfer_ok {env : Env} {self : Addr} {permitSingle : PermitSingle}
    {signature : Bytes} {owner recipient : Addr} {amount : Nat} {s sf : CallState}
    (h : validatePermitAndTransfer env self permitSingle signature owner recipient amount s =
      Except.ok (sf, ())) :
    ∃ w1 r1 w2 r2,
      env.exec s.world (ExtCall.permit2Permit owner permitSingle signature) = some (w1, r1) ∧
      env.exec w1 (ExtCall.permit2TransferFrom owner recipient amount
        permitSingle.details.token) = some (w2, r2) ∧
      sf.world = w2 ∧
      sf.trace = s.trace ++ [ExtCall.permit2Permit owner permitSingle signature,
        ExtCall.permit2TransferFrom owner recipient amount permitSingle.details.token] ∧
      sf.events = s.events ++ [Event.TokensTransferred owner recipient
        permitSingle.details.token amount] := by
  unfold validatePermitAndTransfer at h
  split at h
  · simp at h
  split at h
  · simp at h
  split at h
  · simp at h
  split at h
  · simp at h
  split at h
  · simp at h
  split at h
  · simp at h
  split at h
  · simp at h
  rename_i s1 r1 hx1
  obtain ⟨he1, ht1, hev1⟩ := extCall_ok hx1
  split at h
  · simp at h
  rename_i s2 r2 hx2
  obtain ⟨he2, ht2, hev2⟩ := extCall_ok hx2
  simp only [Except.ok.injEq, Prod.mk.injEq] at h
  obtain ⟨h1, -⟩ := h
  subst h1
  exact ⟨s1.world, r1, s2.world, r2, he1, he2, rfl,
    by simp only [emit]; rw [ht2, ht1]; simp,
    by simp only [emit]; rw [hev2, hev1]⟩

theorem receiveTokensWithPermit_ok {env : Env} {self : Addr} {permitSingle : PermitSingle}
    {signature : Bytes} {owner : Addr} {amount : Nat} {s sf : CallState}
    (h : receiveTokensWithPermit env self permitSingle signature owner amount s =
      Except.ok (sf, ())) :
    ∃ w1 r1 w2 r2,
      env.exec s.world (ExtCall.permit2Permit owner permitSingle signature) = some (w1, r1) ∧
      env.exec w1 (ExtCall.permit2TransferFrom owner self amount
        permitSingle.details.token) = some (w2, r2) ∧
      sf.world = w2 ∧
      sf.trace = s.trace ++ [ExtCall.permit2Permit owner permitSingle signature,
        ExtCall.permit2TransferFrom owner self amount permitSingle.details.token] ∧
      sf.events = s.events ++ [Event.TokensTransferred owner self
        permitSingle.details.token amount] := by
  unfold receiveTokensWithPermit at h
  split at h
  · simp at h
  split at h
  · simp at h
  split at h
  · simp at h
  split at h
  · simp at h
  split at h
  · simp at h
  rename_i s1 r1 hx1
  obtain ⟨he1, ht1, hev1⟩ := extCall_ok hx1
  split at h
  · simp at h
  rename_i s2 r2 hx2
  obtain ⟨he2, ht2, hev2⟩ := extCall_ok hx2
  simp only [Except.ok.injEq, Prod.mk.injEq] at h
  obtain ⟨h1, -⟩ := h
  subst h1
  exact ⟨s1.world, r1, s2.world, r2, he1, he2, rfl,
    by simp only [emit]; rw [ht2, ht1]; simp,
    by simp only [emit]; rw [hev2, hev1]⟩

theorem receiveAndBridge_ok {env : Env} {self : Addr} {permitSingle : PermitSingle}
    {signature : Bytes} {owner : Addr} {amount dstEid : Nat} {dstAddress : Addr}
    {minAmountLD : Nat} {extraOptions : Bytes} {msgValue : Nat} {s sf : CallState}
    (h : receiveAndBridge env self permitSingle signature owner amount dstEid dstAddress
      minAmountLD extraOptions msgValue s = Except.ok (sf, ())) :
    ∃ w1 r1 w2 r2 w3 r3 receipt oftR,
      env.exec s.world (ExtCall.permit2Permit owner permitSingle signature) = some (w1, r1) ∧
      env.exec w1 (ExtCall.permit2TransferFrom owner self amount
        permitSingle.details.token) = some (w2, r2) ∧
      env.exec w2 (ExtCall.tokenApprove permitSingle.details.token
        permitSingle.details.token amount) = some (w3, r3) ∧
      env.exec w3 (ExtCall.oftSend permitSingle.details.token
        (mkSendParam dstEid dstAddress amount minAmountLD extraOptions)
        { nativeFee := msgValue, lzTokenFee := 0 } owner msgValue) =
        some (sf.world, CallRet.sendRet receipt oftR) ∧
      sf.trace = s.trace ++ [ExtCall.permit2Permit owner permitSingle signature,
        ExtCall.permit2TransferFrom owner self amount permitSingle.details.token,
        ExtCall.tokenApprove permitSingle.details.token permitSingle.details.token amount,
        ExtCall.oftSend permitSingle.details.token
          (mkSendParam dstEid dstAddress amount minAmountLD extraOptions)
          { nativeFee := msgValue, lzTokenFee := 0 } owner msgValue] ∧
      sf.events = s.events ++
        [Event.TokensTransferred owner self permitSingle.details.token amount,
         Event.TokensBridged owner permitSingle.details.token dstEid dstAddress amount
           receipt.guid] := by
  unfold receiveAndBridge at h
  split at h
  · simp at h
  split at h
  · simp at h
  split at h
  · simp at h
  split at h
  · simp at h
  split at h
  · simp at h
  split at h
  · simp at h
  rename_i s1 r1 hx1
  obtain ⟨he1, ht1, hev1⟩ := extCall_ok hx1
  split at h
  · simp at h
  rename_i s2 r2 hx2
  obtain ⟨he2, ht2, hev2⟩ := extCall_ok hx2
  split at h
  · simp at h
  rename_i s3 r3 hx3
  obtain ⟨he3, ht3, hev3⟩ := extCall_ok hx3
  simp only [emit] at he3 ht3 hev3
  split at h
  · simp at h
  rename_i s4 g hx4
  obtain ⟨m, o, he4, hg, ht4, hev4⟩ := sendViaLayerZero_ok hx4
  subst hg
  simp only [Except.ok.injEq, Prod.mk.injEq] at h
  obtain ⟨h1, -⟩ := h
  subst h1
  exact ⟨s1.world, r1, s2.world, r2, s3.world, r3, m, o, he1, he2, he3, he4,
    by simp only [emit]; rw [ht4, ht3, ht2, ht1]; simp,
    by simp only [emit]; rw [hev4, hev3, hev2, hev1]; simp⟩

theorem receiveAndBridgeGasless_ok {env : Env} {self : Addr} {permit : PermitTransferFrom}
    {owner : Addr} {signature : Bytes} {dstEid : Nat} {dstAddress : Addr}
    {minAmountLD : Nat} {extraOptions : Bytes} {msgValue : Nat} {s sf : CallState}
    (h : receiveAndBridgeGasless env self permit owner signature dstEid dstAddress
      minAmountLD extraOptions msgValue s = Except.ok (sf, ())) :
    ∃ w1 r1 w2 r2 receipt oftR,
      env.exec s.world (ExtCall.permit2SigTransferFrom permit
        { toAddr := self, requestedAmount := permit.permitted.amount } owner signature) =
        some (w1, r1) ∧
      env.exec w1 (ExtCall.tokenApprove permit.permitted.token permit.permitted.token
        permit.permitted.amount) = some (w2, r2) ∧
      env.exec w2 (ExtCall.oftSend permit.permitted.token
        (mkSendParam dstEid dstAddress permit.permitted.amount minAmountLD extraOptions)
        { nativeFee := msgValue, lzTokenFee := 0 } owner msgValue) =
        some (sf.world, CallRet.sendRet receipt oftR) ∧
      sf.trace = s.trace ++ [ExtCall.permit2SigTransferFrom permit
          { toAddr := self, requestedAmount := permit.permitted.amount } owner signature,
        ExtCall.tokenApprove permit.permitted.token permit.permitted.token
          permit.permitted.amount,
        ExtCall.oftSend permit.permitted.token
          (mkSendParam dstEid dstAddress permit.permitted.amount minAmountLD extraOptions)
          { nativeFee := msgValue, lzTokenFee := 0 } owner msgValue] ∧
      sf.events = s.events ++
        [Event.TokensTransferred owner self permit.permitted.token
           (toUint160 permit.permitted.amount),
         Event.TokensBridged owner permit.permitted.token dstEid dstAddress
           permit.permitted.amount receipt.guid] := by
  unfold receiveAndBridgeGasless at h
  split at h
  · simp at h
  split at h
  · simp at h
  split at h
  · simp at h
  split at h
  · simp at h
  rename_i s1 r1 hx1
  obtain ⟨he1, ht1, hev1⟩ := extCall_ok hx1
  split at h
  · simp at h
  rename_i s2 r2 hx2
  obtain ⟨he2, ht2, hev2⟩ := extCall_ok hx2
  simp only [emit] at he2 ht2 hev2
  split at h
  · simp at h
  rename_i s3 g hx3
  obtain ⟨m, o, he3, hg, ht3, hev3⟩ := sendViaLayerZero_ok hx3
  subst hg
  simp only [Except.ok.injEq, Prod.mk.injEq] at h
  obtain ⟨h1, -⟩ := h
  subst h1
  exact ⟨s1.world, r1, s2.world, r2, m, o, he1, he2, he3,
    by simp only [emit]; rw [ht3, ht2, ht1]; simp,
    by simp only [emit]; rw [hev3, hev2, hev1]; simp⟩


theorem extCall_error {env : Env} {s : CallState} {c : ExtCall} {e : Fail}
    (h : extCall env s c = Except.error e) : e = (Err.extRevert, s) := by
  unfold extCall at h
  split at h
  · simp only [Except.error.injEq] at h
    exact h.symm
  · simp at h

theorem validatePermitAndTransfer_localReject
    (self : Addr) (permitSingle : PermitSingle) (signature : Bytes)
    (owner recipient : Addr) (amount : Nat) (w : World)
    (hbad : recipient = 0 ∨ recipient = self ∨ amount = 0 ∨
      permitSingle.details.amount < amount ∨ permitSingle.details.token = 0 ∨
      permitSingle.spender ≠ self) :
    ∃ m, ∀ env, validatePermitAndTransfer env self permitSingle signature owner recipient
      amount (CallState.init w) = Except.error (Err.revert m, CallState.init w) := by
  by_cases h1 : recipient = 0
  · exact ⟨"Invalid recipient", fun env => by
      unfold validatePermitAndTransfer; rw [if_pos h1]⟩
  by_cases h2 : recipient = self
  · exact ⟨"Cannot transfer to self", fun env => by
      unfold validatePermitAndTransfer; rw [if_neg h1, if_pos h2]⟩
  by_cases h3 : amount = 0
  · exact ⟨"Zero amount", fun env => by
      unfold validatePermitAndTransfer; rw [if_neg h1, if_neg h2, if_pos h3]⟩
  by_cases h4 : permitSingle.details.amount < amount
  · exact ⟨"Amount exceeds permitted", fun env => by
      unfold validatePermitAndTransfer; rw [if_neg h1, if_neg h2, if_neg h3, if_pos h4]⟩
  by_cases h5 : permitSingle.details.token = 0
  · exact ⟨"Invalid token", fun env => by
      unfold validatePermitAndTransfer
      rw [if_neg h1, if_neg h2, if_neg h3, if_neg h4, if_pos h5]⟩
  by_cases h6 : permitSingle.spender = self
  · rcases hbad with hb | hb | hb | hb | hb | hb
    exacts [absurd hb h1, absurd hb h2, absurd hb h3, absurd hb h4, absurd hb h5,
      absurd h6 hb]
  · exact ⟨"Invalid spender", fun env => by
      unfold validatePermitAndTransfer
      rw [if_neg h1, if_neg h2, if_neg h3, if_neg h4, if_neg h5, if_pos h6]⟩

theorem receiveTokensWithPermit_localReject
    (self : Addr) (permitSingle : PermitSingle) (signature : Bytes)
    (owner : Addr) (amount : Nat) (w : World)
    (hbad : amount = 0 ∨ permitSingle.details.amount < amount ∨
      permitSingle.details.token = 0 ∨ permitSingle.spender ≠ self) :
    ∃ m, ∀ env, receiveTokensWithPermit env self permitSingle signature owner amount
      (CallState.init w) = Except.error (Err.revert m, CallState.init w) := by
  by_cases h1 : amount = 0
  · exact ⟨"Zero amount", fun env => by
      unfold receiveTokensWithPermit; rw [if_pos h1]⟩
  by_cases h2 : permitSingle.details.amount < amount
  · exact ⟨"Amount exceeds permitted", fun env => by
      unfold receiveTokensWithPermit; rw [if_neg h1, if_pos h2]⟩
  by_cases h3 : permitSingle.details.token = 0
  · exact ⟨"Invalid token", fun env => by
      unfold receiveTokensWithPermit; rw [if_neg h1, if_neg h2, if_pos h3]⟩
  by_cases h4 : permitSingle.spender = self
  · rcases hbad with hb | hb | hb | hb
    exacts [absurd hb h1, absurd hb h2, absurd hb h3, absurd h4 hb]
  · exact ⟨"Invalid spender", fun env => by
      unfold receiveTokensWithPermit; rw [if_neg h1, if_neg h2, if_neg h3, if_pos h4]⟩

theorem receiveAndBridge_localReject
    (self : Addr) (permitSingle : PermitSingle) (signature : Bytes)
    (owner : Addr) (amount dstEid : Nat) (dstAddress : Addr) (minAmountLD : Nat)
    (extraOptions : Bytes) (msgValue : Nat) (w : World)
    (hbad : amount = 0 ∨ dstAddress = 0 ∨ permitSingle.details.amount < amount ∨
      permitSingle.details.token = 0 ∨ permitSingle.spender ≠ self) :
    ∃ m, ∀ env, receiveAndBridge env self permitSingle signature owner amount dstEid
      dstAddress minAmountLD extraOptions msgValue (CallState.init w) =
      Except.error (Err.revert m, CallState.init w) := by
  by_cases h1 : amount = 0
  · exact ⟨"Zero amount", fun env => by
      unfold receiveAndBridge; rw [if_pos h1]⟩
  by_cases h2 : dstAddress = 0
  · exact ⟨"Invalid destination address", fun env => by
      unfold receiveAndBridge; rw [if_neg h1, if_pos h2]⟩
  by_cases h3 : permitSingle.details.amount < amount
  · exact ⟨"Amount exceeds permitted", fun env => by
      unfold receiveAndBridge; rw [if_neg h1, if_neg h2, if_pos h3]⟩
  by_cases h4 : permitSingle.details.token = 0
  · exact ⟨"Invalid token", fun env => by
      unfold receiveAndBridge; rw [if_neg h1, if_neg h2, if_neg h3, if_pos h4]⟩
  by_cases h5 : permitSingle.spender = self
  · rcases hbad with hb | hb | hb | hb | hb
    exacts [absurd hb h1, absurd hb h2, absurd hb h3, absurd hb h4, absurd h5 hb]
  · exact ⟨"Invalid spender", fun env => by
      unfold receiveAndBridge; rw [if_neg h1, if_neg h2, if_neg h3, if_neg h4, if_pos h5]⟩

/-- Projection used by counterexamples: the trace of a successful run. -/
def okTrace {α : Type} (r : ExecResult α) : Option (List ExtCall) :=
  match r with
  | Except.ok (s, _) => some s.trace
  | Except.error _ => none

/-- A concrete environment in which the bridge send reverts while every other
external call succeeds; the registry transfer credits the recipient, so the
intermediate state genuinely differs from the pre-call state. -/
def sendFailEnv : Env where
  exec := fun w c =>
    match c with
    | ExtCall.oftSend _ _ _ _ _ => none
    | ExtCall.permit2TransferFrom _ recipient amount token =>
        some ({ w with balances := fun t a =>
          if t = token then
            (if a = recipient then w.balances t a + amount else w.balances t a)
          else w.balances t a }, CallRet.unitRet)
    | _ => some (w, CallRet.unitRet)
  execView := fun _ _ => none

/-- C1 counterexample: `validatePermit` accepts an `AllowancePermit` and makes
the external registry call even though the permit's declared spender (7) is
not the contract's own address (5); the claim's universally quantified
rejection property is therefore false for the operation `validatePermit`. -/
theorem validatePermit_spender_unchecked :
    cexPermit.spender ≠ 5 ∧
    okTrace (validatePermit okEnv 5 cexPermit [] 9 (CallState.init w0)) =
      some [ExtCall.permit2Permit 9 cexPermit []] :=
  ⟨by decide, rfl⟩

/-- C1 (amended): for the three fund-moving operations that accept an
`AllowancePermit` — `validatePermitAndTransfer`, `receiveTokensWithPermit`
and `receiveAndBridge` — a permit whose declared spender differs from the
contract's own address is rejected before any external call: the result is a
local revert whose carried state is still the initial one (empty trace), for
every environment.  (`validatePermit` performs no such check; see the
counterexample.) -/
theorem spender_mismatch_rejected_before_external_call
    (self : Addr) (permitSingle : PermitSingle) (signature : Bytes)
    (owner recipient : Addr) (amount dstEid : Nat) (dstAddress : Addr)
    (minAmountLD : Nat) (extraOptions : Bytes) (msgValue : Nat) (w : World)
    (hspender : permitSingle.spender ≠ self) :
    (∃ m, ∀ env, validatePermitAndTransfer env self permitSingle signature owner
      recipient amount (CallState.init w) =
      Except.error (Err.revert m, CallState.init w)) ∧
    (∃ m, ∀ env, receiveTokensWithPermit env self permitSingle signature owner amount
      (CallState.init w) = Except.error (Err.revert m, CallState.init w)) ∧
    (∃ m, ∀ env, receiveAndBridge env self permitSingle signature owner amount dstEid
      dstAddress minAmountLD extraOptions msgValue (CallState.init w) =
      Except.error (Err.revert m, CallState.init w)) :=
  ⟨validatePermitAndTransfer_localReject self permitSingle signature owner recipient
      amount w (Or.inr (Or.inr (Or.inr (Or.inr (Or.inr hspender))))),
   receiveTokensWithPermit_localReject self permitSingle signature owner amount w
      (Or.inr (Or.inr (Or.inr hspender))),
   receiveAndBridge_localReject self permitSingle signature owner amount dstEid
      dstAddress minAmountLD extraOptions msgValue w
      (Or.inr (Or.inr (Or.inr (Or.inr hspender))))⟩

/-- Witness for C1's amended theorem at a concrete mismatched permit. -/
theorem spender_mismatch_rejected_witness :
    (∃ m, ∀ env, validatePermitAndTransfer env 5 cexPermit [] 9 4 7 (CallState.init w0) =
      Except.error (Err.revert m, CallState.init w0)) ∧
    (∃ m, ∀ env, receiveTokensWithPermit env 5 cexPermit [] 9 7 (CallState.init w0) =
      Except.error (Err.revert m, CallState.init w0)) ∧
    (∃ m, ∀ env, receiveAndBridge env 5 cexPermit [] 9 7 11 22 0 [] 3
      (CallState.init w0) = Except.error (Err.revert m, CallState.init w0)) :=
  spender_mismatch_rejected_before_external_call 5 cexPermit [] 9 4 7 11 22 0 [] 3 w0
    (by decide)

/-- C2: any failing local precondition of `validatePermitAndTransfer`
(recipient null or the contract itself, zero amount, requested amount above
the permit bound, null token, or mismatched spender) makes the call revert
with the initial state still carried and a result that does not depend on the
environment at all — so in particular no registry interaction occurs, for
every requested amount strictly greater than the permit bound. -/
theorem local_precondition_failure_rejected_before_external_call
    (self : Addr) (permitSingle : PermitSingle) (signature : Bytes)
    (owner recipient : Addr) (amount : Nat) (w : World)
    (hbad : recipient = 0 ∨ recipient = self ∨ amount = 0 ∨
      permitSingle.details.amount < amount ∨ permitSingle.details.token = 0 ∨
      permitSingle.spender ≠ self) :
    ∃ m, ∀ env, validatePermitAndTransfer env self permitSingle signature owner recipient
      amount (CallState.init w) = Except.error (Err.revert m, CallState.init w) :=
  validatePermitAndTransfer_localReject self permitSingle signature owner recipient
    amount w hbad

/-- Witness for C2 with a requested amount (20) strictly above the permit
bound (10). -/
theorem local_precondition_failure_witness :
    ∃ m, ∀ env, validatePermitAndTransfer env 5 goodPermit [] 9 4 20 (CallState.init w0) =
      Except.error (Err.revert m, CallState.init w0) :=
  local_precondition_failure_rejected_before_external_call 5 goodPermit [] 9 4 20 w0
    (Or.inr (Or.inr (Or.inr (Or.inl (by decide)))))

/-- C3: for every entry point of the contract and every environment and input,
an aborted run (local `require` failure or external-call failure at any point)
commits nothing: the platform-level result state `finalWorld` equals the
pre-call world, even when the state carried at the failure point differs. -/
theorem aborted_operation_rolls_back (env : Env) (self : Addr) (w : World) :
    (∀ p sig owner es, validatePermit env self p sig owner (CallState.init w) =
        Except.error es →
      finalWorld w (validatePermit env self p sig owner (CallState.init w)) = w) ∧
    (∀ p sig owner recipient amount es,
      validatePermitAndTransfer env self p sig owner recipient amount
        (CallState.init w) = Except.error es →
      finalWorld w (validatePermitAndTransfer env self p sig owner recipient amount
        (CallState.init w)) = w) ∧
    (∀ p sig owner amount es,
      receiveTokensWithPermit env self p sig owner amount (CallState.init w) =
        Except.error es →
      finalWorld w (receiveTokensWithPermit env self p sig owner amount
        (CallState.init w)) = w) ∧
    (∀ p sig owner amount dstEid dstAddress minAmountLD extraOptions msgValue es,
      receiveAndBridge env self p sig owner amount dstEid dstAddress minAmountLD
        extraOptions msgValue (CallState.init w) = Except.error es →
      finalWorld w (receiveAndBridge env self p sig owner amount dstEid dstAddress
        minAmountLD extraOptions msgValue (CallState.init w)) = w) ∧
    (∀ permit owner sig dstEid dstAddress minAmountLD extraOptions msgValue es,
      receiveAndBridgeGasless env self permit owner sig dstEid dstAddress minAmountLD
        extraOptions msgValue (CallState.init w) = Except.error es →
      finalWorld w (receiveAndBridgeGasless env self permit owner sig dstEid dstAddress
        minAmountLD extraOptions msgValue (CallState.init w)) = w) ∧
    (∀ token dstEid dstAddress amount minAmountLD extraOptions es,
      quoteBridge env token dstEid dstAddress amount minAmountLD extraOptions
        (CallState.init w) = Except.error es →
      finalWorld w (quoteBridge env token dstEid dstAddress amount minAmountLD
        extraOptions (CallState.init w)) = w) ∧
    (∀ sender token recipient amount es,
      withdrawTokens env self sender token recipient amount (CallState.init w) =
        Except.error es →
      finalWorld w (withdrawTokens env self sender token recipient amount
        (CallState.init w)) = w) :=
  ⟨fun _ _ _ _ h => by simp [finalWorld, h],
   fun _ _ _ _ _ _ h => by simp [finalWorld, h],
   fun _ _ _ _ _ h => by simp [finalWorld, h],
   fun _ _ _ _ _ _ _ _ _ _ h => by simp [finalWorld, h],
   fun _ _ _ _ _ _ _ _ _ h => by simp [finalWorld, h],
   fun _ _ _ _ _ _ _ h => by simp [finalWorld, h],
   fun _ _ _ _ _ h => by simp [finalWorld, h]⟩

/-- Witness for C3: a `receiveAndBridge` run under `sendFailEnv` passes all
local checks, pulls the funds (changing the world), then aborts at the bridge
send; the committed state still equals the pre-call world. -/
theorem aborted_operation_rolls_back_witness :
    finalWorld w0 (receiveAndBridge sendFailEnv 5 goodPermit [] 9 7 11 22 0 [] 3
      (CallState.init w0)) = w0 := by
  obtain ⟨es, hes⟩ : ∃ es, receiveAndBridge sendFailEnv 5 goodPermit [] 9 7 11 22 0 [] 3
      (CallState.init w0) = Except.error es := ⟨_, rfl⟩
  exact (aborted_operation_rolls_back sendFailEnv 5 w0).2.2.2.1 goodPermit [] 9 7 11 22
    0 [] 3 es hes

theorem viewCall_error {env : Env} {s : CallState} {c : ExtCall} {e : Fail}
    (h : viewCall env s c = Except.error e) : e = (Err.extRevert, s) := by
  unfold viewCall at h
  split at h
  · simp only [Except.error.injEq] at h
    exact h.symm
  · simp at h

/-- A concrete one-shot permit whose amount (2 ^ 160) does not fit in 160
bits. -/
def gaslessPermit : PermitTransferFrom :=
  { permitted := { token := 3, amount := 2 ^ 160 }, nonce := 0, deadline := 99 }

/-- C4: every successful `receiveAndBridgeGasless` run makes exactly one
fund-pulling external call — the registry's one-shot signature transfer, with
the contract itself as destination and the requested amount exactly the
permit's encoded amount — and makes no allowance-registering call at all. -/
theorem gasless_single_pull_exact_amount {env : Env} {self : Addr}
    {permit : PermitTransferFrom} {owner : Addr} {signature : Bytes}
    {dstEid : Nat} {dstAddress : Addr} {minAmountLD : Nat} {extraOptions : Bytes}
    {msgValue : Nat} {w : World} {sf : CallState}
    (h : receiveAndBridgeGasless env self permit owner signature dstEid dstAddress
      minAmountLD extraOptions msgValue (CallState.init w) = Except.ok (sf, ())) :
    sf.trace.filter pullsFunds = [ExtCall.permit2SigTransferFrom permit
      { toAddr := self, requestedAmount := permit.permitted.amount } owner signature] ∧
    sf.trace.filter registersAllowance = [] := by
  obtain ⟨w1, r1, w2, r2, receipt, oftR, he1, he2, he3, ht, hev⟩ :=
    receiveAndBridgeGasless_ok h
  rw [ht]
  constructor
  · simp [CallState.init, pullsFunds]
  · simp [CallState.init, registersAllowance]

/-- Witness for C4 at a concrete successful gasless run. -/
theorem gasless_single_pull_witness :
    ∃ sf, receiveAndBridgeGasless okEnv 5 gaslessPermit 9 [] 11 22 0 [] 3
        (CallState.init w0) = Except.ok (sf, ()) ∧
      sf.trace.filter pullsFunds = [ExtCall.permit2SigTransferFrom gaslessPermit
        { toAddr := 5, requestedAmount := gaslessPermit.permitted.amount } 9 []] ∧
      sf.trace.filter registersAllowance = [] := by
  obtain ⟨sf, hsf⟩ : ∃ sf, receiveAndBridgeGasless okEnv 5 gaslessPermit 9 [] 11 22 0 []
      3 (CallState.init w0) = Except.ok (sf, ()) := ⟨_, rfl⟩
  obtain ⟨h1, h2⟩ := gasless_single_pull_exact_amount hsf
  exact ⟨sf, hsf, h1, h2⟩

/-- C5: in every successful `receiveAndBridge` and `receiveAndBridgeGasless`
run, the registry call pulling the funds completes (the environment returned
a result for it) strictly before the approve and the bridge send appear in
the trace; the transfer-completed event precedes the bridge-initiated event,
and the latter carries exactly the `guid` of the receipt returned by the
bridge send. -/
theorem bridge_ordering_and_message_id :
    (∀ (env : Env) (self : Addr) (permitSingle : PermitSingle) (signature : Bytes)
       (owner : Addr) (amount dstEid : Nat) (dstAddress : Addr) (minAmountLD : Nat)
       (extraOptions : Bytes) (msgValue : Nat) (w : World) (sf : CallState),
      receiveAndBridge env self permitSingle signature owner amount dstEid dstAddress
        minAmountLD extraOptions msgValue (CallState.init w) = Except.ok (sf, ()) →
      ∃ w1 r1 w2 r2 w3 r3 receipt oftR,
        env.exec w (ExtCall.permit2Permit owner permitSingle signature) = some (w1, r1) ∧
        env.exec w1 (ExtCall.permit2TransferFrom owner self amount
          permitSingle.details.token) = some (w2, r2) ∧
        env.exec w2 (ExtCall.tokenApprove permitSingle.details.token
          permitSingle.details.token amount) = some (w3, r3) ∧
        env.exec w3 (ExtCall.oftSend permitSingle.details.token
          (mkSendParam dstEid dstAddress amount minAmountLD extraOptions)
          { nativeFee := msgValue, lzTokenFee := 0 } owner msgValue) =
          some (sf.world, CallRet.sendRet receipt oftR) ∧
        sf.trace = [ExtCall.permit2Permit owner permitSingle signature,
          ExtCall.permit2TransferFrom owner self amount permitSingle.details.token,
          ExtCall.tokenApprove permitSingle.details.token
            permitSingle.details.token amount,
          ExtCall.oftSend permitSingle.details.token
            (mkSendParam dstEid dstAddress amount minAmountLD extraOptions)
            { nativeFee := msgValue, lzTokenFee := 0 } owner msgValue] ∧
        sf.events = [Event.TokensTransferred owner self permitSingle.details.token amount,
          Event.TokensBridged owner permitSingle.details.token dstEid dstAddress amount
            receipt.guid]) ∧
    (∀ (env : Env) (self : Addr) (permit : PermitTransferFrom) (owner : Addr)
       (signature : Bytes) (dstEid : Nat) (dstAddress : Addr) (minAmountLD : Nat)
       (extraOptions : Bytes) (msgValue : Nat) (w : World) (sf : CallState),
      receiveAndBridgeGasless env self permit owner signature dstEid dstAddress
        minAmountLD extraOptions msgValue (CallState.init w) = Except.ok (sf, ()) →
      ∃ w1 r1 w2 r2 receipt oftR,
        env.exec w (ExtCall.permit2SigTransferFrom permit
          { toAddr := self, requestedAmount := permit.permitted.amount } owner
          signature) = some (w1, r1) ∧
        env.exec w1 (ExtCall.tokenApprove permit.permitted.token permit.permitted.token
          permit.permitted.amount) = some (w2, r2) ∧
        env.exec w2 (ExtCall.oftSend permit.permitted.token
          (mkSendParam dstEid dstAddress permit.permitted.amount minAmountLD
            extraOptions)
          { nativeFee := msgValue, lzTokenFee := 0 } owner msgValue) =
          some (sf.world, CallRet.sendRet receipt oftR) ∧
        sf.trace = [ExtCall.permit2SigTransferFrom permit
            { toAddr := self, requestedAmount := permit.permitted.amount } owner
            signature,
          ExtCall.tokenApprove permit.permitted.token permit.permitted.token
            permit.permitted.amount,
          ExtCall.oftSend permit.permitted.token
            (mkSendParam dstEid dstAddress permit.permitted.amount minAmountLD
              extraOptions)
            { nativeFee := msgValue, lzTokenFee := 0 } owner msgValue] ∧
        sf.events = [Event.TokensTransferred owner self permit.permitted.token
            (toUint160 permit.permitted.amount),
          Event.TokensBridged owner permit.permitted.token dstEid dstAddress
            permit.permitted.amount receipt.guid]) := by
  constructor
  · intro env self permitSingle signature owner amount dstEid dstAddress minAmountLD
      extraOptions msgValue w sf h
    obtain ⟨w1, r1, w2, r2, w3, r3, receipt, oftR, he1, he2, he3, he4, ht, hev⟩ :=
      receiveAndBridge_ok h
    refine ⟨w1, r1, w2, r2, w3, r3, receipt, oftR, he1, he2, he3, he4, ?_, ?_⟩
    · rw [ht]; simp [CallState.init]
    · rw [hev]; simp [CallState.init]
  · intro env self permit owner signature dstEid dstAddress minAmountLD extraOptions
      msgValue w sf h
    obtain ⟨w1, r1, w2, r2, receipt, oftR, he1, he2, he3, ht, hev⟩ :=
      receiveAndBridgeGasless_ok h
    refine ⟨w1, r1, w2, r2, receipt, oftR, he1, he2, he3, ?_, ?_⟩
    · rw [ht]; simp [CallState.init]
    · rw [hev]; simp [CallState.init]

/-- Witness for C5 at concrete successful runs of both bridge operations. -/
theorem bridge_ordering_witness :
    (∃ sf receipt, receiveAndBridge okEnv 5 goodPermit [] 9 7 11 22 0 [] 3
        (CallState.init w0) = Except.ok (sf, ()) ∧
      (sf.events = [Event.TokensTransferred 9 5 3 7,
        Event.TokensBridged 9 3 11 22 7 (MessagingReceipt.guid receipt)] ∧
      sf.trace.length = 4)) ∧
    (∃ sf receipt, receiveAndBridgeGasless okEnv 5 gaslessPermit 9 [] 11 22 0 [] 3
        (CallState.init w0) = Except.ok (sf, ()) ∧
      (sf.events = [Event.TokensTransferred 9 5 3 (toUint160 (2 ^ 160)),
        Event.TokensBridged 9 3 11 22 (2 ^ 160) (MessagingReceipt.guid receipt)] ∧
      sf.trace.length = 3)) := by
  constructor
  · obtain ⟨sf, hsf⟩ : ∃ sf, receiveAndBridge okEnv 5 goodPermit [] 9 7 11 22 0 [] 3
        (CallState.init w0) = Except.ok (sf, ()) := ⟨_, rfl⟩
    obtain ⟨w1, r1, w2, r2, w3, r3, receipt, oftR, he1, he2, he3, he4, ht, hev⟩ :=
      bridge_ordering_and_message_id.1 okEnv 5 goodPermit [] 9 7 11 22 0 [] 3 w0 sf hsf
    exact ⟨sf, receipt, hsf, hev, by rw [ht]; rfl⟩
  · obtain ⟨sf, hsf⟩ : ∃ sf, receiveAndBridgeGasless okEnv 5 gaslessPermit 9 [] 11 22 0
        [] 3 (CallState.init w0) = Except.ok (sf, ()) := ⟨_, rfl⟩
    obtain ⟨w1, r1, w2, r2, receipt, oftR, he1, he2, he3, ht, hev⟩ :=
      bridge_ordering_and_message_id.2 okEnv 5 gaslessPermit 9 [] 11 22 0 [] 3 w0 sf hsf
    exact ⟨sf, receipt, hsf, hev, by rw [ht]; rfl⟩

/-- C6: for identical arguments, `quoteBridge` queries the bridge with a
`SendParam` equal field-for-field to the one the send path passes to the
bridge (`mkSendParam` names that common structure: widened destination, empty
compose message and command); the quote is a `view` query that leaves the
world unchanged, emits nothing, and returns only the native-fee component of
the quoted fee. -/
theorem quote_matches_send_parameters :
    (∀ (env : Env) (token : Addr) (dstEid : Nat) (dstAddress : Addr)
       (amount minAmountLD : Nat) (extraOptions : Bytes) (w : World) (sf : CallState)
       (nf : Nat),
      quoteBridge env token dstEid dstAddress amount minAmountLD extraOptions
        (CallState.init w) = Except.ok (sf, nf) →
      sf.world = w ∧ sf.events = [] ∧
      sf.trace = [ExtCall.oftQuoteSend token
        (mkSendParam dstEid dstAddress amount minAmountLD extraOptions) false] ∧
      ∃ mfee, env.execView w (ExtCall.oftQuoteSend token
          (mkSendParam dstEid dstAddress amount minAmountLD extraOptions) false) =
          some (CallRet.feeRet mfee) ∧ nf = mfee.nativeFee) ∧
    (∀ (env : Env) (oft : Addr) (dstEid : Nat) (dstAddress : Addr)
       (amount minAmountLD : Nat) (extraOptions : Bytes) (refundAddress : Addr)
       (nativeFee : Nat) (s sf : CallState) (g : Nat),
      sendViaLayerZero env oft dstEid dstAddress amount minAmountLD extraOptions
        refundAddress nativeFee s = Except.ok (sf, g) →
      sf.trace = s.trace ++ [ExtCall.oftSend oft
        (mkSendParam dstEid dstAddress amount minAmountLD extraOptions)
        { nativeFee := nativeFee, lzTokenFee := 0 } refundAddress nativeFee]) := by
  constructor
  · intro env token dstEid dstAddress amount minAmountLD extraOptions w sf nf h
    obtain ⟨mfee, he, hnf, hw, ht, hev⟩ := quoteBridge_ok h
    refine ⟨hw, by rw [hev]; rfl, by rw [ht]; simp [CallState.init], mfee, he, hnf⟩
  · intro env oft dstEid dstAddress amount minAmountLD extraOptions refundAddress
      nativeFee s sf g h
    obtain ⟨receipt, oftR, he, hg, ht, hev⟩ := sendViaLayerZero_ok h
    exact ht

/-- Witness for C6: quote and send at identical concrete arguments produce
the same `SendParam`. -/
theorem quote_matches_send_witness :
    (∃ sf, quoteBridge okEnv 3 11 22 7 0 [] (CallState.init w0) = Except.ok (sf, 5) ∧
      sf.world = w0 ∧ sf.events = [] ∧
      sf.trace = [ExtCall.oftQuoteSend 3 (mkSendParam 11 22 7 0 []) false]) ∧
    (∃ sf, sendViaLayerZero okEnv 3 11 22 7 0 [] 9 3 (CallState.init w0) =
        Except.ok (sf, 7) ∧
      sf.trace = [ExtCall.oftSend 3 (mkSendParam 11 22 7 0 [])
        { nativeFee := 3, lzTokenFee := 0 } 9 3]) := by
  constructor
  · obtain ⟨sf, hsf⟩ : ∃ sf, quoteBridge okEnv 3 11 22 7 0 [] (CallState.init w0) =
        Except.ok (sf, 5) := ⟨_, rfl⟩
    obtain ⟨hw, hev, ht, -⟩ :=
      quote_matches_send_parameters.1 okEnv 3 11 22 7 0 [] w0 sf 5 hsf
    exact ⟨sf, hsf, hw, hev, ht⟩
  · obtain ⟨sf, hsf⟩ : ∃ sf, sendViaLayerZero okEnv 3 11 22 7 0 [] 9 3
        (CallState.init w0) = Except.ok (sf, 7) := ⟨_, rfl⟩
    have ht := quote_matches_send_parameters.2 okEnv 3 11 22 7 0 [] 9 3
      (CallState.init w0) sf 7 hsf
    exact ⟨sf, hsf, by rw [ht]; rfl⟩

/-- C7: `withdrawTokens` succeeds only when the access check
(`caller = contract ∨ destination = caller`) and the balance check pass; on
success its external calls are exactly a balance query and an approval — no
fund-moving call — and for every caller choosing the destination equal to
themselves, a failure is never the access-check failure. -/
theorem withdraw_access_and_approve_only :
    (∀ (env : Env) (self sender token recipient : Addr) (amount : Nat) (w : World)
       (sf : CallState),
      withdrawTokens env self sender token recipient amount (CallState.init w) =
        Except.ok (sf, ()) →
      (sender = self ∨ recipient = sender) ∧
      (∃ bal, env.execView w (ExtCall.tokenBalanceOf token self) =
        some (CallRet.natRet bal) ∧ amount ≤ bal) ∧
      sf.trace = [ExtCall.tokenBalanceOf token self,
        ExtCall.tokenApprove token recipient amount] ∧
      sf.trace.filter movesFunds = []) ∧
    (∀ (env : Env) (self sender token : Addr) (amount : Nat) (w : World) (es : Fail),
      withdrawTokens env self sender token sender amount (CallState.init w) =
        Except.error es →
      es.1 ≠ Err.revert "Not authorized") := by
  constructor
  · intro env self sender token recipient amount w sf h
    obtain ⟨hacc, bal, w1, r1, hbal, hle, happ, hw, ht, hev⟩ := withdrawTokens_ok h
    refine ⟨hacc, ⟨bal, hbal, hle⟩, by rw [ht]; simp [CallState.init], ?_⟩
    rw [ht]
    simp [CallState.init, movesFunds]
  · intro env self sender token amount w es h
    unfold withdrawTokens at h
    rw [if_pos (Or.inr rfl)] at h
    split at h
    · rename_i e heq
      simp only [Except.error.injEq] at h
      have he : e = (Err.extRevert, CallState.init w) := viewCall_error heq
      rw [← h, he]
      simp
    · rename_i s1 bal heq
      split at h
      · simp only [Except.error.injEq] at h
        rw [← h]
        simp
      · split at h
        · rename_i e heq2
          simp only [Except.error.injEq] at h
          have he : e = (Err.extRevert, s1) := extCall_error heq2
          rw [← h, he]
          simp
        · simp at h
    · rename_i hne s1 r0 heq
      simp only [Except.error.injEq] at h
      rw [← h]
      simp

/-- Witness for C7: a successful self-destination withdrawal, and a failing
one whose error is the balance check, not the access check. -/
theorem withdraw_access_witness :
    (∃ sf, withdrawTokens okEnv 5 9 3 9 100 (CallState.init w0) = Except.ok (sf, ()) ∧
      (9 = 5 ∨ 9 = 9) ∧
      sf.trace = [ExtCall.tokenBalanceOf 3 5, ExtCall.tokenApprove 3 9 100] ∧
      sf.trace.filter movesFunds = []) ∧
    (∃ es, withdrawTokens okEnv 5 9 3 9 2000 (CallState.init w0) = Except.error es ∧
      es.1 ≠ Err.revert "Not authorized") := by
  constructor
  · obtain ⟨sf, hsf⟩ : ∃ sf, withdrawTokens okEnv 5 9 3 9 100 (CallState.init w0) =
        Except.ok (sf, ()) := ⟨_, rfl⟩
    obtain ⟨hacc, -, ht, hmv⟩ :=
      withdraw_access_and_approve_only.1 okEnv 5 9 3 9 100 w0 sf hsf
    exact ⟨sf, hsf, hacc, ht, hmv⟩
  · obtain ⟨es, hes⟩ : ∃ es, withdrawTokens okEnv 5 9 3 9 2000 (CallState.init w0) =
        Except.error es := ⟨_, rfl⟩
    exact ⟨es, hes, withdraw_access_and_approve_only.2 okEnv 5 9 3 2000 w0 es hes⟩

/-- C8: `validatePermit` makes exactly one external call — the registry's
`permit` — and no fund-moving call; under the registry's interface guarantee
that `permit` only records allowance state (leaving balances unchanged), the
contract's run leaves every balance unchanged; on success the only event is
`PermitValidated` carrying owner, token, spender and amount. -/
theorem validatePermit_no_fund_movement
    {env : Env} {self : Addr} {p : PermitSingle} {sig : Bytes} {owner : Addr}
    {w : World} {sf : CallState}
    (hframe : ∀ (w1 : World) (o : Addr) (ps : PermitSingle) (sg : Bytes) (w2 : World)
      (r : CallRet), env.exec w1 (ExtCall.permit2Permit o ps sg) = some (w2, r) →
      w2.balances = w1.balances)
    (h : validatePermit env self p sig owner (CallState.init w) = Except.ok (sf, ())) :
    sf.trace = [ExtCall.permit2Permit owner p sig] ∧
    sf.trace.filter movesFunds = [] ∧
    sf.world.balances = w.balances ∧
    sf.events = [Event.PermitValidated owner p.details.token p.spender
      p.details.amount] := by
  obtain ⟨w1, r1, he, hw, ht, hev⟩ := validatePermit_ok h
  refine ⟨by rw [ht]; simp [CallState.init], ?_, ?_, by rw [hev]; simp [CallState.init]⟩
  · rw [ht]
    simp [CallState.init, movesFunds]
  · rw [hw]
    exact hframe w owner p sig w1 r1 he

/-- Witness for C8 under `okEnv`, whose registry calls keep the world
unchanged. -/
theorem validatePermit_no_fund_movement_witness :
    ∃ sf, validatePermit okEnv 5 goodPermit [] 9 (CallState.init w0) =
        Except.ok (sf, ()) ∧
      sf.trace = [ExtCall.permit2Permit 9 goodPermit []] ∧
      sf.trace.filter movesFunds = [] ∧
      sf.world.balances = w0.balances ∧
      sf.events = [Event.PermitValidated 9 3 5 10] := by
  have hframe : ∀ (w1 : World) (o : Addr) (ps : PermitSingle) (sg : Bytes) (w2 : World)
      (r : CallRet), okEnv.exec w1 (ExtCall.permit2Permit o ps sg) = some (w2, r) →
      w2.balances = w1.balances := by
    intro w1 o ps sg w2 r h
    simp only [okEnv, Option.some.injEq, Prod.mk.injEq] at h
    rw [← h.1]
  obtain ⟨sf, hsf⟩ : ∃ sf, validatePermit okEnv 5 goodPermit [] 9 (CallState.init w0) =
      Except.ok (sf, ()) := ⟨_, rfl⟩
  obtain ⟨ht, hmv, hbal, hev⟩ := validatePermit_no_fund_movement hframe hsf
  exact ⟨sf, hsf, ht, hmv, hbal, hev⟩

/-- C9: the gasless path's transfer-completed event carries the permit amount
truncated to 160 bits (`toUint160`), while the registry pull, the bridge
send, and the bridge-initiated event all carry the full amount; whenever the
amount is at least `2 ^ 160`, the two emitted amounts disagree. -/
theorem gasless_event_amount_truncated {env : Env} {self : Addr}
    {permit : PermitTransferFrom} {owner : Addr} {signature : Bytes}
    {dstEid : Nat} {dstAddress : Addr} {minAmountLD : Nat} {extraOptions : Bytes}
    {msgValue : Nat} {w : World} {sf : CallState}
    (h : receiveAndBridgeGasless env self permit owner signature dstEid dstAddress
      minAmountLD extraOptions msgValue (CallState.init w) = Except.ok (sf, ())) :
    (∃ receipt : MessagingReceipt,
      sf.events = [Event.TokensTransferred owner self permit.permitted.token
          (toUint160 permit.permitted.amount),
        Event.TokensBridged owner permit.permitted.token dstEid dstAddress
          permit.permitted.amount receipt.guid] ∧
      sf.trace = [ExtCall.permit2SigTransferFrom permit
          { toAddr := self, requestedAmount := permit.permitted.amount } owner signature,
        ExtCall.tokenApprove permit.permitted.token permit.permitted.token
          permit.permitted.amount,
        ExtCall.oftSend permit.permitted.token
          (mkSendParam dstEid dstAddress permit.permitted.amount minAmountLD
            extraOptions)
          { nativeFee := msgValue, lzTokenFee := 0 } owner msgValue]) ∧
    (2 ^ 160 ≤ permit.permitted.amount →
      toUint160 permit.permitted.amount ≠ permit.permitted.amount) := by
  obtain ⟨w1, r1, w2, r2, receipt, oftR, he1, he2, he3, ht, hev⟩ :=
    receiveAndBridgeGasless_ok h
  refine ⟨⟨receipt, by rw [hev]; simp [CallState.init],
    by rw [ht]; simp [CallState.init]⟩, ?_⟩
  intro hge heq
  have hlt : toUint160 permit.permitted.amount < 2 ^ 160 :=
    Nat.mod_lt _ (by positivity)
  rw [heq] at hlt
  exact Nat.lt_irrefl _ (Nat.lt_of_le_of_lt hge hlt)

/-- Witness for C9 at the concrete amount `2 ^ 160`: the transfer event
reports 0 while the bridged event reports `2 ^ 160`. -/
theorem gasless_event_amount_truncated_witness :
    ∃ sf, receiveAndBridgeGasless okEnv 5 gaslessPermit 9 [] 11 22 0 [] 3
        (CallState.init w0) = Except.ok (sf, ()) ∧
      toUint160 gaslessPermit.permitted.amount ≠ gaslessPermit.permitted.amount ∧
      (∃ receipt : MessagingReceipt,
        sf.events = [Event.TokensTransferred 9 5 3 (toUint160 (2 ^ 160)),
          Event.TokensBridged 9 3 11 22 (2 ^ 160) receipt.guid]) := by
  obtain ⟨sf, hsf⟩ : ∃ sf, receiveAndBridgeGasless okEnv 5 gaslessPermit 9 [] 11 22 0 []
      3 (CallState.init w0) = Except.ok (sf, ()) := ⟨_, rfl⟩
  obtain ⟨⟨receipt, hev, ht⟩, hdis⟩ := gasless_event_amount_truncated hsf
  exact ⟨sf, hsf, hdis (Nat.le_refl _), ⟨receipt, hev⟩⟩

/-- C10: every bridge send issued by `receiveAndBridge` and
`receiveAndBridgeGasless` passes a fee whose native-fee field is the caller's
entire attached value, which is also forwarded as the call value, with the
bridge-native fee field zero, and the refund address is the permit owner. -/
theorem bridge_fee_and_refund_shape :
    (∀ (env : Env) (self : Addr) (permitSingle : PermitSingle) (signature : Bytes)
       (owner : Addr) (amount dstEid : Nat) (dstAddress : Addr) (minAmountLD : Nat)
       (extraOptions : Bytes) (msgValue : Nat) (w : World) (sf : CallState),
      receiveAndBridge env self permitSingle signature owner amount dstEid dstAddress
        minAmountLD extraOptions msgValue (CallState.init w) = Except.ok (sf, ()) →
      ∃ t, sf.trace = t ++ [ExtCall.oftSend permitSingle.details.token
        (mkSendParam dstEid dstAddress amount minAmountLD extraOptions)
        { nativeFee := msgValue, lzTokenFee := 0 } owner msgValue]) ∧
    (∀ (env : Env) (self : Addr) (permit : PermitTransferFrom) (owner : Addr)
       (signature : Bytes) (dstEid : Nat) (dstAddress : Addr) (minAmountLD : Nat)
       (extraOptions : Bytes) (msgValue : Nat) (w : World) (sf : CallState),
      receiveAndBridgeGasless env self permit owner signature dstEid dstAddress
        minAmountLD extraOptions msgValue (CallState.init w) = Except.ok (sf, ()) →
      ∃ t, sf.trace = t ++ [ExtCall.oftSend permit.permitted.token
        (mkSendParam dstEid dstAddress permit.permitted.amount minAmountLD extraOptions)
        { nativeFee := msgValue, lzTokenFee := 0 } owner msgValue]) := by
  constructor
  · intro env self permitSingle signature owner amount dstEid dstAddress minAmountLD
      extraOptions msgValue w sf h
    obtain ⟨w1, r1, w2, r2, w3, r3, receipt, oftR, he1, he2, he3, he4, ht, hev⟩ :=
      receiveAndBridge_ok h
    refine ⟨[ExtCall.permit2Permit owner permitSingle signature,
      ExtCall.permit2TransferFrom owner self amount permitSingle.details.token,
      ExtCall.tokenApprove permitSingle.details.token
        permitSingle.details.token amount], ?_⟩
    rw [ht]
    simp [CallState.init]
  · intro env self permit owner signature dstEid dstAddress minAmountLD extraOptions
      msgValue w sf h
    obtain ⟨w1, r1, w2, r2, receipt, oftR, he1, he2, he3, ht, hev⟩ :=
      receiveAndBridgeGasless_ok h
    refine ⟨[ExtCall.permit2SigTransferFrom permit
      { toAddr := self, requestedAmount := permit.permitted.amount } owner signature,
      ExtCall.tokenApprove permit.permitted.token permit.permitted.token
        permit.permitted.amount], ?_⟩
    rw [ht]
    simp [CallState.init]

/-- Witness for C10 at concrete successful runs of both bridge operations. -/
theorem bridge_fee_and_refund_witness :
    (∃ sf t, receiveAndBridge okEnv 5 goodPermit [] 9 7 11 22 0 [] 3
        (CallState.init w0) = Except.ok (sf, ()) ∧
      sf.trace = t ++ [ExtCall.oftSend 3 (mkSendParam 11 22 7 0 [])
        { nativeFee := 3, lzTokenFee := 0 } 9 3]) ∧
    (∃ sf t, receiveAndBridgeGasless okEnv 5 gaslessPermit 9 [] 11 22 0 [] 3
        (CallState.init w0) = Except.ok (sf, ()) ∧
      sf.trace = t ++ [ExtCall.oftSend 3 (mkSendParam 11 22 (2 ^ 160) 0 [])
        { nativeFee := 3, lzTokenFee := 0 } 9 3]) := by
  constructor
  · obtain ⟨sf, hsf⟩ : ∃ sf, receiveAndBridge okEnv 5 goodPermit [] 9 7 11 22 0 [] 3
        (CallState.init w0) = Except.ok (sf, ()) := ⟨_, rfl⟩
    obtain ⟨t, ht⟩ :=
      bridge_fee_and_refund_shape.1 okEnv 5 goodPermit [] 9 7 11 22 0 [] 3 w0 sf hsf
    exact ⟨sf, t, hsf, ht⟩
  · obtain ⟨sf, hsf⟩ : ∃ sf, receiveAndBridgeGasless okEnv 5 gaslessPermit 9 [] 11 22 0
        [] 3 (CallState.init w0) = Except.ok (sf, ()) := ⟨_, rfl⟩
    obtain ⟨t, ht⟩ := bridge_fee_and_refund_shape.2 okEnv 5 gaslessPermit 9 [] 11 22 0
      [] 3 w0 sf hsf
    exact ⟨sf, t, hsf, ht⟩
